import Mathlib

/-!
Verification development for the job-application tracker's core pipeline:
status classification (app/classification/email_classifier.py with the
pattern set of app/config/settings.py), field extraction
(app/gmail/email_processor.py) and the deduplicating Excel merge engine
(app/excel/tracker.py).

Strings are modelled over their character lists; Python semantics
(str.lower, str.title, str.strip, str.split, dict insertion order,
set membership, cell truthiness) are embedded explicitly.  The scope is
ASCII text, matching every pattern and example in the claims.
-/

/-! ## Character helpers (Python `str` semantics, ASCII scope) -/

/-- Python whitespace for `\s`, `str.strip` and `str.title` boundaries:
space, tab, newline, carriage return, vertical tab, form feed. -/
def isPySpace (c : Char) : Bool :=
  decide (c = ' ' ∨ c = '\t' ∨ c = '\n' ∨ c = '\r' ∨ c = '\x0b' ∨ c = '\x0c')

/-- ASCII letter, the `[a-zA-Z]` character class and Python's cased
characters in the ASCII range. -/
def isAsciiAlpha (c : Char) : Bool :=
  decide ((65 ≤ c.toNat ∧ c.toNat ≤ 90) ∨ (97 ≤ c.toNat ∧ c.toNat ≤ 122))

/-- ASCII digit, the `\d` character class restricted to ASCII. -/
def isDigitB (c : Char) : Bool :=
  decide (48 ≤ c.toNat ∧ c.toNat ≤ 57)

/-- Numeric value of an ASCII digit character. -/
def digitVal (c : Char) : Nat := c.toNat - 48

/-- Python `str.lower` over a character list (ASCII case mapping). -/
def pyLower (l : List Char) : List Char := l.map Char.toLower

/-- Helper for `str.title`: the Boolean records whether the previous
character was cased; a cased character after a non-cased one is
uppercased, otherwise lowercased. -/
def titleAux : Bool → List Char → List Char
  | _, [] => []
  | prev, c :: t =>
    if isAsciiAlpha c then
      (if prev then c.toLower else c.toUpper) :: titleAux true t
    else c :: titleAux false t

/-- Python `str.title`. -/
def pyTitle (l : List Char) : List Char := titleAux false l

/-- Python `str.strip` (no argument): drop whitespace at both ends. -/
def pyStrip (l : List Char) : List Char :=
  ((l.dropWhile isPySpace).reverse.dropWhile isPySpace).reverse

/-- Python `str.split(sep)` for a one-character separator: splits at every
occurrence, keeping empty fields, and returns at least one field. -/
def pySplit (sep : Char) : List Char → List (List Char)
  | [] => [[]]
  | c :: t =>
    let r := pySplit sep t
    if c = sep then [] :: r else (c :: r.headD []) :: r.tail

/-! ## Regular-expression engine

A backtracking engine for exactly the constructs appearing in the
repository's patterns: literal characters (compared case-insensitively,
modelling `re.IGNORECASE`), the character classes `\s` and `[a-zA-Z\s]`,
greedy and lazy one-or-more over a class (`\s+`, `[a-zA-Z\s]+`,
`[a-zA-Z\s]+?`), greedy zero-or-more over a class (`\s*`), concatenation,
alternation `(?:a|b)` (left branch tried first), greedy option `(?:a)?`
(presence tried first) and a single capture group `( )`.
`runRx` returns the possible (remaining input, captured group) pairs in
Python's backtracking priority order; `searchG` scans start positions left
to right, which together give exactly `re.search`: the leftmost match,
with the engine's first result at that position. -/

inductive CC
  | ws
  | alphaWs
deriving DecidableEq

/-- Membership in a character class. -/
def ccMem (p : CC) (c : Char) : Bool :=
  match p with
  | CC.ws => isPySpace c
  | CC.alphaWs => isAsciiAlpha c || isPySpace c

inductive Rx
  | eps
  | lit (c : Char)
  | clsPlus (p : CC) (lz : Bool)
  | clsStar (p : CC)
  | seq (a b : Rx)
  | alt (a b : Rx)
  | opt (a : Rx)
  | group (a : Rx)
deriving DecidableEq

/-- All ways to match `r` at the start of `s`, in backtracking priority
order.  Each result is the remaining suffix together with the text
captured by the capture group, if the group participated. -/
def runRx : Rx → List Char → List (List Char × Option (List Char))
  | Rx.eps, s => [(s, none)]
  | Rx.lit c, s =>
    match s with
    | [] => []
    | d :: t => if c.toLower = d.toLower then [(t, none)] else []
  | Rx.clsPlus p lz, s =>
    let n := (s.takeWhile (ccMem p)).length
    let ks := (List.range n).map (fun k => k + 1)
    (if lz then ks else ks.reverse).map (fun k => (s.drop k, none))
  | Rx.clsStar p, s =>
    let n := (s.takeWhile (ccMem p)).length
    (List.range (n + 1)).reverse.map (fun k => (s.drop k, none))
  | Rx.seq a b, s =>
    (runRx a s).flatMap (fun pr =>
      (runRx b pr.1).map (fun qr =>
        (qr.1, match pr.2 with | some g => some g | none => qr.2)))
  | Rx.alt a b, s => runRx a s ++ runRx b s
  | Rx.opt a, s => runRx a s ++ [(s, none)]
  | Rx.group a, s =>
    (runRx a s).map (fun pr => (pr.1, some (s.take (s.length - pr.1.length))))

/-- Python `re.search`: try each start position from the left; at the
first position with a match, return the first match's captured group.
`none` means no match anywhere. -/
def searchG (r : Rx) : List Char → Option (Option (List Char))
  | [] =>
    match runRx r [] with
    | pr :: _ => some pr.2
    | [] => none
  | c :: t =>
    match runRx r (c :: t) with
    | pr :: _ => some pr.2
    | [] => searchG r t

/-- Boolean form of `re.search` for patterns used without groups. -/
def searchB (r : Rx) (s : List Char) : Bool := (searchG r s).isSome

/-- Literal string pattern. -/
def rStr (s : String) : Rx :=
  s.data.foldr (fun c acc => Rx.seq (Rx.lit c) acc) Rx.eps

/-- Concatenation of a pattern list. -/
def rxSeq (l : List Rx) : Rx := l.foldr Rx.seq Rx.eps

/-- The pattern `\s+`. -/
def wsP : Rx := Rx.clsPlus CC.ws false

/-- The pattern `\s*`. -/
def wsStar : Rx := Rx.clsStar CC.ws

/-- Words joined by `\s+`, e.g. `we\s+regret\s+to\s+inform`. -/
def wordsRx (l : List String) : Rx := rxSeq ((l.map rStr).intersperse wsP)

/-! ## Classifier (email_classifier.py with Settings.EMAIL_PATTERNS)

`Settings.EMAIL_PATTERNS` is a Python dict, insertion-ordered; it is
embedded as an association list in the order the source defines the
categories and, within a category, the patterns. -/

/-- Settings.EMAIL_PATTERNS, categories and patterns in source order. -/
def defaultPatterns : List (String × List Rx) :=
  [("application_received",
     [rxSeq [rStr "thank", wsP, rStr "you", wsP, rStr "for", wsP,
             Rx.opt (rxSeq [rStr "your", wsP]),
             Rx.alt (rStr "interest") (rStr "applying")],
      rxSeq [rStr "application", wsP,
             Rx.opt (rxSeq [rStr "has", wsP, rStr "been", wsP]),
             rStr "received"],
      wordsRx ["we", "have", "received", "your", "application"],
      wordsRx ["your", "application", "for"],
      wordsRx ["application", "confirmation"]]),
   ("rejection",
     [rStr "unfortunately",
      wordsRx ["we", "regret", "to", "inform"],
      wordsRx ["after", "careful", "consideration"],
      wordsRx ["we", "have", "decided", "to", "move", "forward", "with", "other"],
      rxSeq [rStr "not", wsP, rStr "selected", wsP, rStr "for", wsP,
             Rx.opt (rxSeq [rStr "this", wsP]), rStr "position"],
      wordsRx ["we", "will", "not", "be", "moving", "forward"],
      wordsRx ["position", "has", "been", "filled"]]),
   ("interview",
     [rStr "interview",
      rxSeq [rStr "schedule", wsP, Rx.opt (rxSeq [rStr "a", wsP]),
             Rx.alt (rStr "call") (rStr "meeting")],
      rxSeq [rStr "next", wsP, Rx.alt (rStr "step") (rStr "round")],
      rxSeq [rStr "would", wsP, rStr "like", wsP, rStr "to", wsP,
             Rx.alt (rStr "speak") (rStr "talk"), wsP, rStr "with", wsP,
             rStr "you"],
      rxSeq [rStr "phone", wsP, Rx.alt (rStr "screen") (rStr "call")],
      rxSeq [rStr "video", wsP, Rx.alt (rStr "call") (rStr "interview")]]),
   ("offer",
     [rxSeq [rStr "pleased", wsP, rStr "to", wsP,
             Rx.alt (rStr "offer") (rStr "extend")],
      wordsRx ["job", "offer"],
      wordsRx ["offer", "of", "employment"],
      rStr "congratulations",
      wordsRx ["we", "would", "like", "to", "offer", "you"]])]

/-- Python `str.lower` on a string value. -/
def lowerChars (s : String) : List Char := s.data.map Char.toLower

/-- The text classified: `f"{subject} {body}".lower()`. -/
def classifyContent (subject body : String) : List Char :=
  lowerChars (subject ++ " " ++ body)

/-- The nested loops of `classify_email`: for each category in order, for
each of its patterns in order, return the category on the first match;
fall through to "unknown". -/
def classifyCore : List (String × List Rx) → List Char → String
  | [], _ => "unknown"
  | cat :: rest, content =>
    if cat.2.any (fun p => searchB p content) then cat.1
    else classifyCore rest content

/-- EmailClassifier.classify_email. -/
def classify_email (ps : List (String × List Rx)) (subject body : String) : String :=
  classifyCore ps (classifyContent subject body)

/-- EmailClassifier.add_pattern: append a pattern to a category,
creating the category at the end of the dict order if absent. -/
def add_pattern (ps : List (String × List Rx)) (category : String) (pat : Rx) :
    List (String × List Rx) :=
  if ps.any (fun cat => cat.1 == category) then
    ps.map (fun cat => if cat.1 = category then (cat.1, cat.2 ++ [pat]) else cat)
  else ps ++ [(category, [pat])]

/-! ## Company extraction (email_processor.py _extract_company_info) -/

/-- Settings.COMMON_EMAIL_PROVIDERS. -/
def commonEmailProviders : List String :=
  ["gmail.com", "yahoo.com", "hotmail.com", "outlook.com",
   "icloud.com", "aol.com", "protonmail.com"]

/-- The provider list as character lists. -/
def providersChars : List (List Char) := commonEmailProviders.map String.data

/-- The company branch of EmailProcessor._extract_company_info:
company = "Unknown"; if '@' in sender: domain = sender.split('@')[1].lower();
if domain not in COMMON_EMAIL_PROVIDERS: company = domain.split('.')[0].title(). -/
def extract_company (sender : String) : String :=
  let cs := sender.data
  if cs.contains '@' then
    let domain := pyLower ((pySplit '@' cs).getD 1 [])
    if providersChars.contains domain then "Unknown"
    else ⟨pyTitle ((pySplit '.' domain).getD 0 [])⟩
  else "Unknown"

/-- Modelled from the claim's words (C5), for comparison with the code:
the domain is "the domain portion after '@'", i.e. the whole substring
after the first '@'; the rest follows the claim: lower-case, return
"Unknown" on an exact generic-provider match, else title-case the first
dot-separated label. -/
def extractCompanyClaim (sender : String) : String :=
  let cs := sender.data
  if cs.contains '@' then
    let domain := pyLower ((cs.dropWhile (fun c => decide (c ≠ '@'))).drop 1)
    if providersChars.contains domain then "Unknown"
    else ⟨pyTitle (domain.takeWhile (fun c => decide (c ≠ '.')))⟩
  else "Unknown"

/-- The amended description of extract_company: the domain is the portion
between the first and second '@' (field 1 of splitting on '@'), written
with takeWhile/dropWhile instead of split so it is computed differently
from `extract_company`. -/
def extractCompanyAmended (sender : String) : String :=
  let cs := sender.data
  if cs.contains '@' then
    let domain :=
      pyLower (((cs.dropWhile (fun c => decide (c ≠ '@'))).drop 1).takeWhile
        (fun c => decide (c ≠ '@')))
    if providersChars.contains domain then "Unknown"
    else ⟨pyTitle (domain.takeWhile (fun c => decide (c ≠ '.')))⟩
  else "Unknown"

/-! ## Position extraction (email_processor.py _extract_position) -/

/-- Pattern `(?:for\s+(?:the\s+)?)?(?:position\s+of\s+)?([a-zA-Z\s]+?)(?:\s+position|\s+role|\s+at|\s+-)`. -/
def posPat1 : Rx :=
  rxSeq [Rx.opt (rxSeq [rStr "for", wsP, Rx.opt (rxSeq [rStr "the", wsP])]),
         Rx.opt (rxSeq [rStr "position", wsP, rStr "of", wsP]),
         Rx.group (Rx.clsPlus CC.alphaWs true),
         Rx.alt (rxSeq [wsP, rStr "position"])
           (Rx.alt (rxSeq [wsP, rStr "role"])
             (Rx.alt (rxSeq [wsP, rStr "at"]) (rxSeq [wsP, rStr "-"])))]

/-- Pattern `(?:role:\s*|position:\s*)([a-zA-Z\s]+)`. -/
def posPat2 : Rx :=
  rxSeq [Rx.alt (rxSeq [rStr "role:", wsStar]) (rxSeq [rStr "position:", wsStar]),
         Rx.group (Rx.clsPlus CC.alphaWs false)]

/-- Pattern `application\s+for\s+([a-zA-Z\s]+?)(?:\s+at|\s+-|\s+position)`. -/
def posPat3 : Rx :=
  rxSeq [rStr "application", wsP, rStr "for", wsP,
         Rx.group (Rx.clsPlus CC.alphaWs true),
         Rx.alt (rxSeq [wsP, rStr "at"])
           (Rx.alt (rxSeq [wsP, rStr "-"]) (rxSeq [wsP, rStr "position"]))]

/-- The ordered pattern list of _extract_position. -/
def positionPatterns : List Rx := [posPat1, posPat2, posPat3]

/-- EmailProcessor._extract_position: first pattern that matches wins;
its group(1) is stripped and title-cased; otherwise "Unknown".  In all
three patterns the capture group participates in every match, so the
`getD []` default is never taken. -/
def extract_position (subject : String) : String :=
  match positionPatterns.findSome? (fun r => searchG r subject.data) with
  | some g => ⟨pyTitle (pyStrip (g.getD []))⟩
  | none => "Unknown"

/-! ## Date parsing (email_processor.py _parse_email_date)

`datetime.strptime(s, '%a, %d %b %Y %H:%M:%S %z')` is embedded following
CPython's _strptime: the format's whitespace matches `\s+`, names match
case-insensitively, `%d`/`%H`/`%M`/`%S` match two digits when the
two-digit value is in range and otherwise one digit, `%Y` matches exactly
four digits, `%z` matches `[+-]HH[:]MM` with optional seconds/fraction or
a literal 'Z', the whole string must be consumed, and the datetime
constructor then rejects out-of-range components (day past the month's
end, leap seconds, UTC offsets of a day or more, year 0). -/

structure Ymd where
  y : Nat
  m : Nat
  d : Nat
deriving DecidableEq

/-- Read one ASCII digit. -/
def read1 (s : List Char) : Option (Nat × List Char) :=
  match s with
  | a :: t => if isDigitB a then some (digitVal a, t) else none
  | [] => none

/-- Read two ASCII digits. -/
def read2 (s : List Char) : Option (Nat × List Char) :=
  match s with
  | a :: b :: t =>
    if isDigitB a && isDigitB b then some (digitVal a * 10 + digitVal b, t)
    else none
  | _ => none

/-- `%d`, regex `(3[01]|[12]\d|0[1-9]|[1-9])`: a two-digit value in 1..31,
else a single digit in 1..9. -/
def readDay (s : List Char) : Option (Nat × List Char) :=
  let one :=
    match read1 s with
    | some (v, t) => if 1 ≤ v then some (v, t) else none
    | none => none
  match read2 s with
  | some (v, t) => if 1 ≤ v ∧ v ≤ 31 then some (v, t) else one
  | none => one

/-- `%H`, regex `(2[0-3]|[0-1]\d|\d)`. -/
def readHour (s : List Char) : Option (Nat × List Char) :=
  match read2 s with
  | some (v, t) => if v ≤ 23 then some (v, t) else read1 s
  | none => read1 s

/-- `%M`, regex `([0-5]\d|\d)`. -/
def readMin (s : List Char) : Option (Nat × List Char) :=
  match read2 s with
  | some (v, t) => if v ≤ 59 then some (v, t) else read1 s
  | none => read1 s

/-- `%S`, regex `(6[0-1]|[0-5]\d|\d)` (leap seconds pass the regex and are
rejected later by the datetime constructor). -/
def readSec (s : List Char) : Option (Nat × List Char) :=
  match read2 s with
  | some (v, t) => if v ≤ 61 then some (v, t) else read1 s
  | none => read1 s

/-- Case-insensitive literal match of a (lowercase) name. -/
def matchNameCI : List Char → List Char → Option (List Char)
  | [], s => some s
  | _ :: _, [] => none
  | p :: ps, c :: cs => if p.toLower = c.toLower then matchNameCI ps cs else none

/-- Abbreviated weekday names for `%a` (value unused by the result). -/
def dayAbbrs : List (List Char) :=
  (["mon", "tue", "wed", "thu", "fri", "sat", "sun"].map String.data)

/-- Abbreviated month names for `%b`, in calendar order. -/
def monthAbbrs : List (List Char) :=
  (["jan", "feb", "mar", "apr", "may", "jun",
    "jul", "aug", "sep", "oct", "nov", "dec"].map String.data)

/-- Try names in order; on a match return its 1-based position. -/
def matchMonthAux : Nat → List (List Char) → List Char → Option (Nat × List Char)
  | _, [], _ => none
  | i, n :: ns, s =>
    match matchNameCI n s with
    | some r => some (i + 1, r)
    | none => matchMonthAux (i + 1) ns s

/-- `%a`: any weekday abbreviation (the parsed weekday is not validated
against the date by strptime). -/
def skipDayName (s : List Char) : Option (List Char) :=
  dayAbbrs.findSome? (fun n => matchNameCI n s)

/-- Format whitespace: `\s+`, one or more whitespace characters. -/
def skipWs1 (s : List Char) : Option (List Char) :=
  match s with
  | c :: t => if isPySpace c then some (t.dropWhile isPySpace) else none
  | [] => none

/-- A required literal character. -/
def expectChar (c : Char) (s : List Char) : Option (List Char) :=
  match s with
  | d :: t => if d = c then some t else none
  | [] => none

/-- Optional fraction `(\.\d{1,6})?` inside `%z`; at most six digits are
consumed, and a dot not followed by a digit leaves an unconsumable rest
either way. -/
def readFracOpt (s : List Char) : Option (List Char) :=
  match s with
  | '.' :: r =>
    let ds := r.takeWhile isDigitB
    if ds.length = 0 then none else some (r.drop (min ds.length 6))
  | _ => some s

/-- Two digits restricted to `[0-5]\d` (a value 00..59). -/
def read2Sexa (s : List Char) : Option (Nat × List Char) :=
  match read2 s with
  | some (v, t) => if v ≤ 59 then some (v, t) else none
  | none => none

/-- Optional seconds part `(:?[0-5]\d(\.\d{1,6})?)?` of `%z`; returns the
seconds (0 when absent) and the rest. -/
def readZtail (s : List Char) : Nat × List Char :=
  let body :=
    match s with
    | ':' :: r => read2Sexa r
    | _ => read2Sexa s
  let attempt :=
    match body with
    | some (sec, r) =>
      match readFracOpt r with
      | some r2 => some (sec, r2)
      | none => none
    | none => none
  match attempt with
  | some (sec, r) => (sec, r)
  | none => (0, s)

/-- `%z`, regex `[+-]\d\d:?[0-5]\d(:?[0-5]\d(\.\d{1,6})?)?|Z` (only 'Z'
is matched case-sensitively).  Returns the offset magnitude in seconds
and the rest; the datetime constructor additionally requires the offset
to be strictly below one day. -/
def readZ (s : List Char) : Option (Nat × List Char) :=
  match s with
  | 'Z' :: t => some (0, t)
  | c :: t =>
    if c = '+' ∨ c = '-' then
      match read2 t with
      | some (h, t1) =>
        let mpart :=
          match t1 with
          | ':' :: r => read2Sexa r
          | _ => read2Sexa t1
        match mpart with
        | some (m, t2) =>
          let st := readZtail t2
          if h * 3600 + m * 60 + st.1 < 86400 then
            some (h * 3600 + m * 60 + st.1, st.2)
          else none
        | none => none
      | none => none
    else none
  | [] => none

/-- Days in a month with the Gregorian leap rule, as validated by the
datetime constructor. -/
def daysInMonth (y m : Nat) : Nat :=
  if m = 2 then (if y % 4 = 0 ∧ (y % 100 ≠ 0 ∨ y % 400 = 0) then 29 else 28)
  else if m = 4 ∨ m = 6 ∨ m = 9 ∨ m = 11 then 30 else 31

/-- `%Y`: exactly four digits. -/
def readYear (s : List Char) : Option (Nat × List Char) :=
  match s with
  | a :: b :: c :: d :: t =>
    if isDigitB a && isDigitB b && isDigitB c && isDigitB d then
      some ((((digitVal a * 10 + digitVal b) * 10 + digitVal c) * 10 + digitVal d), t)
    else none
  | _ => none

/-- Format head `'%a, %d'`: weekday abbreviation, comma, whitespace, day. -/
def parseDayPart (s : List Char) : Option (Nat × List Char) :=
  match skipDayName s with
  | some r0 =>
    match expectChar ',' r0 with
    | some r1 =>
      match skipWs1 r1 with
      | some r2 => readDay r2
      | none => none
    | none => none
  | none => none

/-- Format middle `' %b %Y'`: whitespace, month abbreviation, whitespace,
four-digit year; returns (month, year, rest). -/
def parseMonthYear (s : List Char) : Option (Nat × Nat × List Char) :=
  match skipWs1 s with
  | some r3 =>
    match matchMonthAux 0 monthAbbrs r3 with
    | some (m, r) =>
      match skipWs1 r with
      | some r4 =>
        match readYear r4 with
        | some (y, r5) => some (m, y, r5)
        | none => none
      | none => none
    | none => none
  | none => none

/-- Format `' %H:%M:%S'`; only the seconds value is needed afterwards
(the datetime constructor rejects leap seconds), so it is returned with
the rest. -/
def parseTimePart (s : List Char) : Option (Nat × List Char) :=
  match skipWs1 s with
  | some r5 =>
    match readHour r5 with
    | some (_, r) =>
      match expectChar ':' r with
      | some r6 =>
        match readMin r6 with
        | some (_, r7a) =>
          match expectChar ':' r7a with
          | some r7 => readSec r7
          | none => none
        | none => none
      | none => none
    | none => none
  | none => none

/-- Format tail `' %z'`: whitespace then the offset. -/
def parseZPart (s : List Char) : Option (List Char) :=
  match skipWs1 s with
  | some r8 =>
    match readZ r8 with
    | some (_, rest) => some rest
    | none => none
  | none => none

/-- datetime.strptime with format `'%a, %d %b %Y %H:%M:%S %z'`, returning
the date part on success: the full string must be consumed, and the
datetime constructor's range checks (day within the month, seconds below
60, year at least 1, offset below a day — the last enforced inside
`readZ`) must pass. -/
def strptimeRfc (s : List Char) : Option Ymd :=
  match parseDayPart s with
  | some (d, s1) =>
    match parseMonthYear s1 with
    | some (m, y, s2) =>
      match parseTimePart s2 with
      | some (sec, s3) =>
        match parseZPart s3 with
        | some rest =>
          if rest = [] ∧ sec ≤ 59 ∧ 1 ≤ y ∧ d ≤ daysInMonth y m then
            some ⟨y, m, d⟩
          else none
        | none => none
      | none => none
    | none => none
  | none => none

/-- `date_header.split(' (')[0]`: the text before the first " (". -/
def beforeParen : List Char → List Char
  | [] => []
  | ' ' :: '(' :: _ => []
  | c :: t => c :: beforeParen t

/-- ASCII digit character for a value below 10. -/
def digitChar (n : Nat) : Char := Char.ofNat (48 + n)

/-- Two-digit zero-padded decimal, for `%m`/`%d` in strftime. -/
def format2 (n : Nat) : List Char := [digitChar (n / 10 % 10), digitChar (n % 10)]

/-- Four-digit zero-padded decimal, for `%Y` in strftime (zero padding as
documented for datetime.strftime). -/
def format4 (n : Nat) : List Char :=
  [digitChar (n / 1000 % 10), digitChar (n / 100 % 10),
   digitChar (n / 10 % 10), digitChar (n % 10)]

/-- strftime('%Y-%m-%d'). -/
def formatYmd (p : Ymd) : String :=
  ⟨format4 p.y ++ '-' :: (format2 p.m ++ '-' :: format2 p.d)⟩

/-- EmailProcessor._parse_email_date: strip from " (", strptime, format;
on failure fall back to the current date `today` (datetime.now(),
supplied as a parameter). -/
def parse_email_date (today : Ymd) (date_header : String) : String :=
  match strptimeRfc (beforeParen date_header.data) with
  | some p => formatYmd p
  | none => formatYmd today

/-- A calendar date as produced by datetime.now() or accepted by the
datetime constructor, with the four-digit year of `%Y`. -/
abbrev ValidYmd (p : Ymd) : Prop :=
  1 ≤ p.y ∧ p.y ≤ 9999 ∧ 1 ≤ p.m ∧ p.m ≤ 12 ∧ 1 ≤ p.d ∧ p.d ≤ 31

/-- Shape check for a `YYYY-MM-DD` string. -/
def isYmdShape (s : String) : Bool :=
  match s.data with
  | [a, b, c, d, e, f, g, h, i, j] =>
    isDigitB a && isDigitB b && isDigitB c && isDigitB d &&
    decide (e = '-') && isDigitB f && isDigitB g &&
    decide (h = '-') && isDigitB i && isDigitB j
  | _ => false

/-! ## Excel tracker (tracker.py)

An openpyxl worksheet is modelled as a list of rows, each a list of
cells; a cell holds `none` for an empty cell.  Row and column indices are
1-based as in openpyxl; reading out of range yields an empty cell,
writing out of range pads with empty rows/cells, and `max_row` is the
row count but at least 1 (an empty sheet reports max_row = 1). -/

abbrev Cell := Option String
abbrev Row := List Cell
abbrev Ws := List Row

/-- openpyxl `ws.max_row`. -/
def maxRow (ws : Ws) : Nat := max 1 ws.length

/-- Read cell `col` (1-based) of a row. -/
def getCellR (r : Row) (c : Nat) : Cell := r.getD (c - 1) none

/-- Write cell `col` (1-based) of a row, padding with empty cells. -/
def setCellR (r : Row) (c : Nat) (v : Cell) : Row :=
  (r ++ List.replicate (c - r.length) none).set (c - 1) v

/-- openpyxl `ws.cell(row, column).value`. -/
def cellAt (ws : Ws) (r c : Nat) : Cell := getCellR (ws.getD (r - 1) []) c

/-- openpyxl `ws.cell(row, column, value)`: write a cell, padding the
sheet with empty rows up to `row`. -/
def setCellW (ws : Ws) (r c : Nat) (v : Cell) : Ws :=
  let padded := ws ++ List.replicate (r - ws.length) []
  padded.set (r - 1) (setCellR (padded.getD (r - 1) []) c v)

/-- Settings.EXCEL_HEADERS written into row 1, the loop
`for col, header in enumerate(self.headers, 1)` unrolled over the fixed
header list. -/
def writeHeaders (ws : Ws) : Ws :=
  setCellW (setCellW (setCellW (setCellW (setCellW (setCellW (setCellW
    (setCellW ws 1 1 (some "Company")) 1 2 (some "Position")) 1 3
    (some "Status")) 1 4 (some "Date")) 1 5 (some "Subject")) 1 6
    (some "Sender")) 1 7 (some "Message ID")) 1 8 (some "Last Updated")

/-- ExcelTracker._ensure_headers: write headers only when
`ws.max_row == 1 and ws['A1'].value is None`. -/
def ensureHeaders (ws : Ws) : Ws :=
  if maxRow ws = 1 ∧ cellAt ws 1 1 = none then writeHeaders ws else ws

/-- Python cell truthiness: `if message_id:` / `if status:` skips both an
empty cell and an empty string. -/
def truthy (c : Cell) : Option String :=
  match c with
  | some s => if s = "" then none else some s
  | none => none

/-- ExcelTracker._get_existing_message_ids: the loop
`for row in range(2, ws.max_row + 1)` visits rows 2..max_row in order,
which in the list model are exactly the rows of `ws.drop 1` (when the
sheet has at most one row, max_row = 1 and the loop body never runs);
column 7 is the Message ID column and falsy values are skipped. -/
def getExistingMessageIds (ws : Ws) : List String :=
  (ws.drop 1).filterMap (fun r => truthy (getCellR r 7))

/-- An application dict as produced by the email processor and consumed
by _write_application_row (the `body` key is not written to Excel). -/
structure AppRecord where
  company : String
  position : String
  status : String
  date : String
  subject : String
  sender : String
  message_id : String
deriving DecidableEq

/-- ExcelTracker._write_application_row: columns 1..8 of the given row,
column 8 being `datetime.now()` formatted, supplied as `now`. -/
def writeApplicationRow (ws : Ws) (row : Nat) (app : AppRecord) (now : String) : Ws :=
  setCellW (setCellW (setCellW (setCellW (setCellW (setCellW (setCellW
    (setCellW ws row 1 (some app.company)) row 2 (some app.position)) row 3
    (some app.status)) row 4 (some app.date)) row 5 (some app.subject)) row 6
    (some app.sender)) row 7 (some app.message_id)) row 8 (some now)

/-- The row value written for an application record. -/
def appRow (app : AppRecord) (now : String) : Row :=
  [some app.company, some app.position, some app.status, some app.date,
   some app.subject, some app.sender, some app.message_id, some now]

/-- One iteration of the _add_new_applications loop: skip a record whose
message_id is in the precomputed set, otherwise write it at
`ws.max_row + 1` and count it. -/
def mergeStep (existing : List String) (now : String) (st : Ws × Nat)
    (app : AppRecord) : Ws × Nat :=
  if app.message_id ∈ existing then st
  else (writeApplicationRow st.1 (maxRow st.1 + 1) app now, st.2 + 1)

/-- ExcelTracker._add_new_applications. -/
def addNewApplications (ws : Ws) (apps : List AppRecord)
    (existing : List String) (now : String) : Ws × Nat :=
  apps.foldl (mergeStep existing now) (ws, 0)

/-- The records of a batch whose message_id is not in the existing set. -/
def newApps (existing : List String) (apps : List AppRecord) : List AppRecord :=
  apps.filter (fun a => decide (¬ a.message_id ∈ existing))

/-- The in-memory part of ExcelTracker.update_applications: ensure
headers, snapshot the existing message ids, then append the new records;
returns the updated sheet and `added_count`. -/
def updateApplications (ws : Ws) (apps : List AppRecord) (now : String) : Ws × Nat :=
  let ws1 := ensureHeaders ws
  let existing := getExistingMessageIds ws1
  addNewApplications ws1 apps existing now

/-- ExcelTracker.update_applications including persistence, for the
atomicity claim.  The disk holds the sheet or nothing (file absent; a
fresh workbook's sheet is empty).  Exceptions raised by load_workbook, by
the in-memory merge (e.g. a KeyError on a malformed record dict) and by
wb.save are modelled by the three Booleans; every exception propagates to
the `except` clause of update_applications, which returns False.  Saving
is the single `wb.save` call after the whole merge, and per the
persistence collaborator's contract it either succeeds or leaves the file
as it was.  Returns the resulting disk state and the Boolean returned to
the caller. -/
def updateApplicationsDisk (disk : Option Ws) (loadFails mergeFails saveFails : Bool)
    (apps : List AppRecord) (now : String) : Option Ws × Bool :=
  if disk.isSome && loadFails then (disk, false)
  else
    let merged := (updateApplications (disk.getD []) apps now).1
    if mergeFails then (disk, false)
    else if saveFails then (disk, false)
    else (some merged, true)

/-- One update of the `status_counts` dict:
`status_counts[status] = status_counts.get(status, 0) + 1`, keeping dict
insertion order. -/
def bump (l : List (String × Nat)) (s : String) : List (String × Nat) :=
  match l with
  | [] => [(s, 1)]
  | (k, v) :: t => if k = s then (k, v + 1) :: t else (k, v) :: bump t s

/-- One iteration of the _count_applications_by_status loop over a data
row: a truthy status bumps its counter and the total. -/
def statusStep (st : List (String × Nat) × Nat) (r : Row) :
    List (String × Nat) × Nat :=
  match truthy (getCellR r 3) with
  | some s => (bump st.1 s, st.2 + 1)
  | none => st

/-- ExcelTracker._count_applications_by_status: the same
`range(2, ws.max_row + 1)` loop as _get_existing_message_ids, over the
Status column (3). -/
def countApplicationsByStatus (ws : Ws) : List (String × Nat) × Nat :=
  (ws.drop 1).foldl statusStep ([], 0)

/-- The truthy statuses of the data rows, in row order. -/
def statusList (ws : Ws) : List String :=
  (ws.drop 1).filterMap (fun r => truthy (getCellR r 3))

/-- The result shape of get_application_summary: an error dict or the
summary (the constant parts of the message strings; the file path
interpolations are dropped). -/
inductive SummaryResult
  | err (msg : String)
  | summary (total : Nat) (counts : List (String × Nat))
deriving DecidableEq

/-- ExcelTracker.get_application_summary: `none` models a missing file
(`self.excel_path.exists()` false); otherwise count statuses and report
an error dict when no application was counted. -/
def get_application_summary (disk : Option Ws) : SummaryResult :=
  match disk with
  | none => SummaryResult.err "Excel file not found"
  | some ws =>
    let ct := countApplicationsByStatus ws
    if ct.2 = 0 then SummaryResult.err "No applications found in Excel file"
    else SummaryResult.summary ct.2 ct.1

/-! ## List helper lemmas -/

theorem getD_append_lt {α : Type} (l₁ l₂ : List α) (n : Nat) (d : α)
    (h : n < l₁.length) : (l₁ ++ l₂).getD n d = l₁.getD n d := by
  induction l₁ generalizing n with
  | nil => simp at h
  | cons a t ih =>
    cases n with
    | zero => rfl
    | succ m =>
      simp only [List.cons_append, List.getD_cons_succ]
      exact ih m (by simpa using h)

theorem getD_append_ge {α : Type} (l₁ l₂ : List α) (n : Nat) (d : α)
    (h : l₁.length ≤ n) : (l₁ ++ l₂).getD n d = l₂.getD (n - l₁.length) d := by
  induction l₁ generalizing n with
  | nil => simp
  | cons a t ih =>
    cases n with
    | zero => simp at h
    | succ m =>
      simp only [List.cons_append, List.getD_cons_succ]
      rw [ih m (by simpa using h)]
      simp

theorem getD_len_le {α : Type} (l : List α) (n : Nat) (d : α)
    (h : l.length ≤ n) : l.getD n d = d := by
  induction l generalizing n with
  | nil => cases n <;> rfl
  | cons a t ih =>
    cases n with
    | zero => simp at h
    | succ m => simpa using ih m (by simpa using h)

theorem getD_replicate {α : Type} (k n : Nat) (d : α) :
    (List.replicate k d).getD n d = d := by
  induction k generalizing n with
  | zero => cases n <;> rfl
  | succ m ih =>
    cases n with
    | zero => rfl
    | succ i => simpa [List.replicate] using ih i

theorem getD_set_self {α : Type} (l : List α) (n : Nat) (a d : α)
    (h : n < l.length) : (l.set n a).getD n d = a := by
  induction l generalizing n with
  | nil => simp at h
  | cons b t ih =>
    cases n with
    | zero => rfl
    | succ m => simpa using ih m (by simpa using h)

theorem getD_set_ne {α : Type} (l : List α) : ∀ (n m : Nat) (a d : α),
    n ≠ m → (l.set m a).getD n d = l.getD n d := by
  induction l with
  | nil => intro n m a d h; rfl
  | cons b t ih =>
    intro n m a d h
    cases m with
    | zero =>
      cases n with
      | zero => exact absurd rfl h
      | succ i => rfl
    | succ j =>
      cases n with
      | zero => rfl
      | succ i => simpa using ih i j a d (by omega)

theorem set_append_right {α : Type} (l₁ l₂ : List α) (n : Nat) (a : α) :
    (l₁ ++ l₂).set (l₁.length + n) a = l₁ ++ l₂.set n a := by
  induction l₁ with
  | nil => simp
  | cons b t ih => simpa [Nat.succ_add] using ih

/-! ## Worksheet lemmas -/

theorem setCellW_length (ws : Ws) (r c : Nat) (v : Cell) :
    (setCellW ws r c v).length = ws.length + (r - ws.length) := by
  simp [setCellW]

theorem getCellR_setCellR_self (row : Row) (c : Nat) (v : Cell) (h : 1 ≤ c) :
    getCellR (setCellR row c v) c = v := by
  unfold getCellR setCellR
  exact getD_set_self _ _ _ _ (by simp; omega)

theorem getCellR_setCellR_ne (row : Row) (c c2 : Nat) (v : Cell)
    (hc : 1 ≤ c) (hc2 : 1 ≤ c2) (h : c2 ≠ c) :
    getCellR (setCellR row c v) c2 = getCellR row c2 := by
  unfold getCellR setCellR
  rw [getD_set_ne _ _ _ _ _ (by omega)]
  rcases Nat.lt_or_ge (c2 - 1) row.length with hlt | hge
  · exact getD_append_lt _ _ _ _ hlt
  · rw [getD_append_ge _ _ _ _ hge, getD_len_le _ _ _ hge]
    exact getD_replicate _ _ _

theorem cellAt_setCellW_row_ne (ws : Ws) (r c r2 c2 : Nat) (v : Cell)
    (hr : 1 ≤ r) (hr2 : 1 ≤ r2) (h : r2 ≠ r) :
    cellAt (setCellW ws r c v) r2 c2 = cellAt ws r2 c2 := by
  unfold cellAt setCellW
  rw [getD_set_ne _ _ _ _ _ (by omega)]
  rcases Nat.lt_or_ge (r2 - 1) ws.length with hlt | hge
  · rw [getD_append_lt _ _ _ _ hlt]
  · rw [getD_append_ge _ _ _ _ hge, getD_len_le _ _ _ hge]
    rw [getD_replicate]

theorem cellAt_setCellW_row1_ne (ws : Ws) (c c2 r2 : Nat) (v : Cell)
    (h : 2 ≤ r2) :
    cellAt (setCellW ws 1 c v) r2 c2 = cellAt ws r2 c2 :=
  cellAt_setCellW_row_ne ws 1 c r2 c2 v (by omega) (by omega) (by omega)

theorem cellAt_setCellW_row_eq (ws : Ws) (r c c2 : Nat) (v : Cell)
    (hr : 1 ≤ r) (hc : 1 ≤ c) (hc2 : 1 ≤ c2) :
    cellAt (setCellW ws r c v) r c2 = if c2 = c then v else cellAt ws r c2 := by
  unfold cellAt setCellW
  rw [getD_set_self _ _ _ _ (by simp; omega)]
  have hold : (ws ++ List.replicate (r - ws.length) ([] : Row)).getD (r - 1) [] =
      ws.getD (r - 1) [] ∨
      ((ws ++ List.replicate (r - ws.length) ([] : Row)).getD (r - 1) [] = [] ∧
        ws.getD (r - 1) [] = []) := by
    rcases Nat.lt_or_ge (r - 1) ws.length with hlt | hge
    · exact Or.inl (getD_append_lt _ _ _ _ hlt)
    · refine Or.inr ⟨?_, getD_len_le _ _ _ hge⟩
      rw [getD_append_ge _ _ _ _ hge]
      exact getD_replicate _ _ _
  by_cases hcc : c2 = c
  · subst hcc
    simp only [if_pos rfl]
    exact getCellR_setCellR_self _ _ _ hc
  · rw [if_neg hcc]
    rcases hold with heq | ⟨h1, h2⟩
    · rw [heq]
      exact getCellR_setCellR_ne _ _ _ _ hc hc2 hcc
    · rw [h1, h2]
      exact getCellR_setCellR_ne _ _ _ _ hc hc2 hcc

theorem cellAt_append_lt (ws : Ws) (rows : List Row) (r c : Nat)
    (h : r ≤ ws.length) (hr : 1 ≤ r) :
    cellAt (ws ++ rows) r c = cellAt ws r c := by
  unfold cellAt
  rw [getD_append_lt _ _ _ _ (by omega)]

/-! ## Header and merge lemmas -/

theorem writeHeaders_length (ws : Ws) : (writeHeaders ws).length = max ws.length 1 := by
  simp [writeHeaders, setCellW_length]
  omega

theorem writeHeaders_cells_ge2 (ws : Ws) (r c : Nat) (h : 2 ≤ r) :
    cellAt (writeHeaders ws) r c = cellAt ws r c := by
  simp only [writeHeaders]
  rw [cellAt_setCellW_row1_ne _ _ _ _ _ h, cellAt_setCellW_row1_ne _ _ _ _ _ h,
    cellAt_setCellW_row1_ne _ _ _ _ _ h, cellAt_setCellW_row1_ne _ _ _ _ _ h,
    cellAt_setCellW_row1_ne _ _ _ _ _ h, cellAt_setCellW_row1_ne _ _ _ _ _ h,
    cellAt_setCellW_row1_ne _ _ _ _ _ h, cellAt_setCellW_row1_ne _ _ _ _ _ h]

theorem writeHeaders_a1 (ws : Ws) : cellAt (writeHeaders ws) 1 1 = some "Company" := by
  simp only [writeHeaders]
  rw [cellAt_setCellW_row_eq _ _ _ _ _ (by omega) (by omega) (by omega)]
  rw [if_neg (by omega)]
  rw [cellAt_setCellW_row_eq _ _ _ _ _ (by omega) (by omega) (by omega)]
  rw [if_neg (by omega)]
  rw [cellAt_setCellW_row_eq _ _ _ _ _ (by omega) (by omega) (by omega)]
  rw [if_neg (by omega)]
  rw [cellAt_setCellW_row_eq _ _ _ _ _ (by omega) (by omega) (by omega)]
  rw [if_neg (by omega)]
  rw [cellAt_setCellW_row_eq _ _ _ _ _ (by omega) (by omega) (by omega)]
  rw [if_neg (by omega)]
  rw [cellAt_setCellW_row_eq _ _ _ _ _ (by omega) (by omega) (by omega)]
  rw [if_neg (by omega)]
  rw [cellAt_setCellW_row_eq _ _ _ _ _ (by omega) (by omega) (by omega)]
  rw [if_neg (by omega)]
  rw [cellAt_setCellW_row_eq _ _ _ _ _ (by omega) (by omega) (by omega)]
  rw [if_pos rfl]

theorem ensureHeaders_len_pos (ws : Ws) : 1 ≤ (ensureHeaders ws).length := by
  unfold ensureHeaders
  split
  · rw [writeHeaders_length]; omega
  · rename_i hcond
    by_contra hlen
    have h0 : ws.length = 0 := by omega
    have hnil : ws = [] := List.length_eq_zero.mp h0
    subst hnil
    exact hcond ⟨by simp [maxRow], rfl⟩

theorem ensureHeaders_len_ge (ws : Ws) : ws.length ≤ (ensureHeaders ws).length := by
  unfold ensureHeaders
  split
  · rename_i hcond
    have : ws.length ≤ 1 := by
      have := hcond.1
      unfold maxRow at this
      omega
    rw [writeHeaders_length]
    omega
  · exact Nat.le_refl _

theorem ensureHeaders_cells_ge2 (ws : Ws) (r c : Nat) (h : 2 ≤ r) :
    cellAt (ensureHeaders ws) r c = cellAt ws r c := by
  unfold ensureHeaders
  split
  · exact writeHeaders_cells_ge2 ws r c h
  · rfl

theorem ensureHeaders_ids (ws : Ws) :
    getExistingMessageIds (ensureHeaders ws) = getExistingMessageIds ws := by
  unfold ensureHeaders
  split
  · rename_i hcond
    have h1 : ws.length ≤ 1 := by
      have := hcond.1
      unfold maxRow at this
      omega
    have h2 : (writeHeaders ws).length ≤ 1 := by rw [writeHeaders_length]; omega
    unfold getExistingMessageIds
    rw [List.drop_eq_nil_of_le h1, List.drop_eq_nil_of_le h2]
  · rfl

theorem setCellW_fresh (ws : Ws) (c : Nat) (v : Cell) :
    setCellW ws (ws.length + 1) c v = ws ++ [setCellR [] c v] := by
  unfold setCellW
  have h1 : ws.length + 1 - ws.length = 1 := by omega
  have h2 : ws.length + 1 - 1 = ws.length := by omega
  simp only [h1, h2]
  have h3 : (ws ++ List.replicate 1 ([] : Row)).getD ws.length [] = [] := by
    rw [getD_append_ge _ _ _ _ (Nat.le_refl _)]
    simp
  rw [h3]
  have h4 := set_append_right ws (List.replicate 1 ([] : Row)) 0 (setCellR [] c v)
  simpa using h4

theorem setCellW_last (ws : Ws) (row : Row) (c : Nat) (v : Cell) :
    setCellW (ws ++ [row]) (ws.length + 1) c v = ws ++ [setCellR row c v] := by
  unfold setCellW
  have hlen : (ws ++ [row]).length = ws.length + 1 := by simp
  rw [hlen]
  have h1 : ws.length + 1 - (ws.length + 1) = 0 := by omega
  have h2 : ws.length + 1 - 1 = ws.length := by omega
  simp only [h1, h2, List.replicate, List.append_nil]
  have h3 : (ws ++ [row]).getD ws.length [] = row := by
    rw [getD_append_ge _ _ _ _ (Nat.le_refl _)]
    simp
  rw [h3]
  have h4 := set_append_right ws [row] 0 (setCellR row c v)
  simpa using h4

theorem writeRow_snoc (ws : Ws) (app : AppRecord) (now : String)
    (h : 1 ≤ ws.length) :
    writeApplicationRow ws (maxRow ws + 1) app now = ws ++ [appRow app now] := by
  have hm : maxRow ws = ws.length := by unfold maxRow; omega
  unfold writeApplicationRow
  rw [hm, setCellW_fresh, setCellW_last, setCellW_last, setCellW_last,
    setCellW_last, setCellW_last, setCellW_last, setCellW_last]
  have e1 : setCellR [] 1 (some app.company) = [some app.company] := by
    unfold setCellR; rfl
  rw [e1]
  have e2 : setCellR [some app.company] 2 (some app.position) =
      [some app.company, some app.position] := by
    unfold setCellR; rfl
  rw [e2]
  have e3 : setCellR [some app.company, some app.position] 3 (some app.status) =
      [some app.company, some app.position, some app.status] := by
    unfold setCellR; rfl
  rw [e3]
  have e4 : setCellR [some app.company, some app.position, some app.status] 4
      (some app.date) =
      [some app.company, some app.position, some app.status, some app.date] := by
    unfold setCellR; rfl
  rw [e4]
  have e5 : setCellR
      [some app.company, some app.position, some app.status, some app.date] 5
      (some app.subject) =
      [some app.company, some app.position, some app.status, some app.date,
        some app.subject] := by
    unfold setCellR; rfl
  rw [e5]
  have e6 : setCellR
      [some app.company, some app.position, some app.status, some app.date,
        some app.subject] 6 (some app.sender) =
      [some app.company, some app.position, some app.status, some app.date,
        some app.subject, some app.sender] := by
    unfold setCellR; rfl
  rw [e6]
  have e7 : setCellR
      [some app.company, some app.position, some app.status, some app.date,
        some app.subject, some app.sender] 7 (some app.message_id) =
      [some app.company, some app.position, some app.status, some app.date,
        some app.subject, some app.sender, some app.message_id] := by
    unfold setCellR; rfl
  rw [e7]
  have e8 : setCellR
      [some app.company, some app.position, some app.status, some app.date,
        some app.subject, some app.sender, some app.message_id] 8 (some now) =
      [some app.company, some app.position, some app.status, some app.date,
        some app.subject, some app.sender, some app.message_id, some now] := by
    unfold setCellR; rfl
  rw [e8]
  rfl

theorem addNew_snoc (existing : List String) (now : String) (apps : List AppRecord) :
    ∀ (ws : Ws) (cnt : Nat), 1 ≤ ws.length →
    apps.foldl (mergeStep existing now) (ws, cnt) =
      (ws ++ (newApps existing apps).map (fun a => appRow a now),
        cnt + (newApps existing apps).length) := by
  induction apps with
  | nil => intro ws cnt h; simp [newApps]
  | cons a t ih =>
    intro ws cnt h
    by_cases hmem : a.message_id ∈ existing
    · have hstep : mergeStep existing now (ws, cnt) a = (ws, cnt) := by
        unfold mergeStep
        rw [if_pos hmem]
      rw [List.foldl_cons, hstep, ih ws cnt h]
      have hfil : newApps existing (a :: t) = newApps existing t := by
        unfold newApps
        simp [List.filter_cons, hmem]
      rw [hfil]
    · have hstep : mergeStep existing now (ws, cnt) a =
          (ws ++ [appRow a now], cnt + 1) := by
        unfold mergeStep
        rw [if_neg hmem, writeRow_snoc ws a now h]
      rw [List.foldl_cons, hstep,
        ih (ws ++ [appRow a now]) (cnt + 1) (by simp)]
      have hfil : newApps existing (a :: t) = a :: newApps existing t := by
        unfold newApps
        simp [List.filter_cons, hmem]
      rw [hfil]
      refine Prod.ext ?_ ?_
      · simp
      · simp
        omega

theorem updateApplications_eq (ws : Ws) (apps : List AppRecord) (now : String) :
    updateApplications ws apps now =
      (ensureHeaders ws ++
         (newApps (getExistingMessageIds ws) apps).map (fun a => appRow a now),
       (newApps (getExistingMessageIds ws) apps).length) := by
  show List.foldl (mergeStep (getExistingMessageIds (ensureHeaders ws)) now)
      (ensureHeaders ws, 0) apps = _
  rw [addNew_snoc (getExistingMessageIds (ensureHeaders ws)) now apps
    (ensureHeaders ws) 0 (ensureHeaders_len_pos ws)]
  rw [ensureHeaders_ids]
  simp

theorem ids_append (ws : Ws) (rows : List Row) (h : 1 ≤ ws.length) :
    getExistingMessageIds (ws ++ rows) =
      getExistingMessageIds ws ++ rows.filterMap (fun r => truthy (getCellR r 7)) := by
  unfold getExistingMessageIds
  match ws, h with
  | a :: t, _ =>
    simp [List.filterMap_append]

theorem truthy_appRow (app : AppRecord) (now : String) :
    truthy (getCellR (appRow app now) 7) =
      if app.message_id = "" then none else some app.message_id := rfl

theorem update_preserves_data_rows (ws : Ws) (apps : List AppRecord) (now : String)
    (r c : Nat) (h2 : 2 ≤ r) (hle : r ≤ maxRow ws) :
    cellAt (updateApplications ws apps now).1 r c = cellAt ws r c := by
  rw [updateApplications_eq]
  dsimp only
  have hlen : r ≤ ws.length := by
    unfold maxRow at hle
    omega
  have hlen1 : r ≤ (ensureHeaders ws).length :=
    le_trans hlen (ensureHeaders_len_ge ws)
  rw [cellAt_append_lt _ _ _ _ hlen1 (by omega)]
  exact ensureHeaders_cells_ge2 ws r c h2

theorem update_ids (ws : Ws) (apps : List AppRecord) (now : String) :
    getExistingMessageIds (updateApplications ws apps now).1 =
      getExistingMessageIds ws ++
        (newApps (getExistingMessageIds ws) apps).filterMap
          (fun a => if a.message_id = "" then none else some a.message_id) := by
  rw [updateApplications_eq]
  dsimp only
  rw [ids_append _ _ (ensureHeaders_len_pos ws), ensureHeaders_ids]
  congr 1
  rw [List.filterMap_map]
  have hfun : ((fun r => truthy (getCellR r 7)) ∘ (fun a => appRow a now)) =
      (fun a : AppRecord => if a.message_id = "" then none else some a.message_id) := by
    funext a
    exact truthy_appRow a now
  rw [hfun]

/-- Claim C1 (amended): with a starting table whose truthy message ids are
pairwise distinct and a batch whose records carry pairwise-distinct
message ids, the merge preserves uniqueness of the (truthy) message ids,
leaves every data row (row index at least 2) untouched cell for cell, and
inserts exactly the records whose message_id is not already present —
records with a known message_id are skipped, never used to update a
row. -/
theorem C1_merge_unique (ws : Ws) (apps : List AppRecord) (now : String)
    (h1 : (getExistingMessageIds ws).Nodup)
    (h2 : (apps.map AppRecord.message_id).Nodup) :
    (getExistingMessageIds (updateApplications ws apps now).1).Nodup
    ∧ (∀ r c, 2 ≤ r → r ≤ maxRow ws →
        cellAt (updateApplications ws apps now).1 r c = cellAt ws r c)
    ∧ (updateApplications ws apps now).2 =
        (newApps (getExistingMessageIds ws) apps).length := by
  refine ⟨?_, ?_, ?_⟩
  · rw [update_ids, List.nodup_append]
    refine ⟨h1, ?_, ?_⟩
    · have hsub : List.Sublist
          ((newApps (getExistingMessageIds ws) apps).map AppRecord.message_id)
          (apps.map AppRecord.message_id) := by
        unfold newApps
        exact (List.filter_sublist _).map _
      have hmnd : ((newApps (getExistingMessageIds ws) apps).map
          AppRecord.message_id).Nodup := List.Nodup.sublist hsub h2
      have hrw : (newApps (getExistingMessageIds ws) apps).filterMap
          (fun a => if a.message_id = "" then none else some a.message_id) =
          ((newApps (getExistingMessageIds ws) apps).map AppRecord.message_id).filterMap
            (fun s => if s = "" then none else some s) := by
        rw [List.filterMap_map]
        rfl
      rw [hrw]
      refine List.Nodup.filterMap ?_ hmnd
      intro a b s hsa hsb
      by_cases ha : a = ""
      · simp [ha] at hsa
      · by_cases hb : b = ""
        · simp [hb] at hsb
        · simp [ha] at hsa
          simp [hb] at hsb
          exact hsa.trans hsb.symm
    · intro x hx1 hx2
      rw [List.mem_filterMap] at hx2
      obtain ⟨a, haNew, hguard⟩ := hx2
      by_cases ha : a.message_id = ""
      · simp [ha] at hguard
      · rw [if_neg ha] at hguard
        obtain rfl : x = a.message_id := by
          cases hguard
          rfl
        unfold newApps at haNew
        rw [List.mem_filter] at haNew
        have : ¬ a.message_id ∈ getExistingMessageIds ws := by
          simpa using haNew.2
        exact this hx1
  · intro r c hr hle
    exact update_preserves_data_rows ws apps now r c hr hle
  · rw [updateApplications_eq]

/-- Claim C1 counterexample: the claim as stated fails for a batch that
itself contains two records with the same message_id — the set of
existing ids is computed once before the loop, so both copies are
inserted and the resulting table has two rows with message id "m1". -/
theorem C1_counterexample :
    ¬ (getExistingMessageIds
        (updateApplications []
          [⟨"Acme", "Dev", "unknown", "2024-01-01", "subj", "a@acme.com", "m1"⟩,
           ⟨"Acme", "Dev", "unknown", "2024-01-01", "subj", "a@acme.com", "m1"⟩]
          "2024-01-01 00:00:00").1).Nodup := by
  decide

/-- Witness for C1_merge_unique at a concrete table and batch. -/
theorem C1_merge_unique_witness :
    (getExistingMessageIds
      (updateApplications [[some "Company"]]
        [⟨"A", "P", "s", "d", "su", "a@a.com", "m1"⟩,
         ⟨"B", "Q", "s", "d", "su", "b@b.com", "m2"⟩] "now").1).Nodup :=
  (C1_merge_unique [[some "Company"]]
    [⟨"A", "P", "s", "d", "su", "a@a.com", "m1"⟩,
     ⟨"B", "Q", "s", "d", "su", "b@b.com", "m2"⟩] "now"
    (by decide) (by decide)).1

theorem ensureHeaders_update_fix (ws : Ws) (apps : List AppRecord) (now : String) :
    ensureHeaders (updateApplications ws apps now).1 =
      (updateApplications ws apps now).1 := by
  unfold ensureHeaders
  rw [if_neg]
  intro hcond
  obtain ⟨hmax, ha1⟩ := hcond
  by_cases hc0 : maxRow ws = 1 ∧ cellAt ws 1 1 = none
  · have hws1 : ensureHeaders ws = writeHeaders ws := by
      unfold ensureHeaders
      rw [if_pos hc0]
    have hlen : 1 ≤ (ensureHeaders ws).length := ensureHeaders_len_pos ws
    have hcomp : cellAt (updateApplications ws apps now).1 1 1 = some "Company" := by
      rw [updateApplications_eq]
      dsimp only
      rw [cellAt_append_lt _ _ _ _ (by omega) (by omega), hws1, writeHeaders_a1]
    rw [hcomp] at ha1
    exact Option.noConfusion ha1
  · have hws1 : ensureHeaders ws = ws := by
      unfold ensureHeaders
      rw [if_neg hc0]
    have hlenws : 1 ≤ ws.length := by
      by_contra hl
      have h0 : ws = [] := List.length_eq_zero.mp (by omega)
      subst h0
      exact hc0 ⟨by simp [maxRow], rfl⟩
    have ht1eq : (updateApplications ws apps now).1 =
        ws ++ (newApps (getExistingMessageIds ws) apps).map (fun a => appRow a now) := by
      rw [updateApplications_eq]
      dsimp only
      rw [hws1]
    have hlent1 : (updateApplications ws apps now).1.length =
        ws.length +
          ((newApps (getExistingMessageIds ws) apps).map (fun a => appRow a now)).length := by
      rw [ht1eq]
      simp
    have hle1 : (updateApplications ws apps now).1.length ≤ 1 := by
      unfold maxRow at hmax
      omega
    have hws1len : ws.length = 1 := by omega
    have hrows0 :
        ((newApps (getExistingMessageIds ws) apps).map (fun a => appRow a now)).length = 0 := by
      omega
    have hrowsnil : (newApps (getExistingMessageIds ws) apps).map (fun a => appRow a now) = [] :=
      List.length_eq_zero.mp hrows0
    rw [ht1eq, hrowsnil, List.append_nil] at ha1
    exact hc0 ⟨by unfold maxRow; omega, ha1⟩

/-- Claim C2 (amended): when every record of the batch has a non-empty
message_id, merging the batch a second time inserts nothing: the second
call reports 0 insertions and returns the table of the first call
unchanged (so in particular the row count is unchanged). -/
theorem C2_merge_idempotent (ws : Ws) (apps : List AppRecord) (now now2 : String)
    (h : ∀ a ∈ apps, a.message_id ≠ "") :
    (updateApplications (updateApplications ws apps now).1 apps now2).2 = 0
    ∧ (updateApplications (updateApplications ws apps now).1 apps now2).1 =
        (updateApplications ws apps now).1 := by
  have hmem : ∀ a ∈ apps,
      a.message_id ∈ getExistingMessageIds (updateApplications ws apps now).1 := by
    intro a ha
    rw [update_ids]
    by_cases hx : a.message_id ∈ getExistingMessageIds ws
    · exact List.mem_append_left _ hx
    · refine List.mem_append_right _ ?_
      rw [List.mem_filterMap]
      refine ⟨a, ?_, ?_⟩
      · unfold newApps
        rw [List.mem_filter]
        exact ⟨ha, by simpa using hx⟩
      · rw [if_neg (h a ha)]
  have hempty :
      newApps (getExistingMessageIds (updateApplications ws apps now).1) apps = [] := by
    unfold newApps
    rw [List.filter_eq_nil_iff]
    intro a ha
    simpa using hmem a ha
  constructor
  · rw [updateApplications_eq]
    dsimp only
    rw [hempty]
    rfl
  · rw [updateApplications_eq]
    dsimp only
    rw [hempty]
    simp only [List.map_nil, List.append_nil]
    exact ensureHeaders_update_fix ws apps now

/-- Claim C2 counterexample: a record with an empty message_id is never
recorded in the existing-id set (cell truthiness skips it), so merging
the same one-record batch twice inserts it again: the second call
reports 1 insertion, not 0. -/
theorem C2_counterexample :
    (updateApplications
      (updateApplications [] [⟨"A", "P", "s", "d", "su", "se", ""⟩] "t").1
      [⟨"A", "P", "s", "d", "su", "se", ""⟩] "u").2 = 1 := by
  decide

/-- Witness for C2_merge_idempotent at a concrete batch. -/
theorem C2_merge_idempotent_witness :
    (updateApplications
      (updateApplications [] [⟨"A", "P", "s", "d", "su", "se", "m1"⟩] "t").1
      [⟨"A", "P", "s", "d", "su", "se", "m1"⟩] "u").2 = 0 :=
  (C2_merge_idempotent [] [⟨"A", "P", "s", "d", "su", "se", "m1"⟩] "t" "u"
    (by decide)).1

/-- Claim C10 (amended): the merge preserves every data row (index at
least 2) cell for cell; it preserves row 1 whenever the header-write
condition does not hold (the sheet has more than one row, or cell A1 is
populated — the emptiness check examines only A1); and the result is
always the header-ensured sheet with rows appended after the last
existing row. -/
theorem C10_append_only (ws : Ws) (apps : List AppRecord) (now : String) :
    (∀ r c, 2 ≤ r → r ≤ maxRow ws →
      cellAt (updateApplications ws apps now).1 r c = cellAt ws r c)
    ∧ (¬ (maxRow ws = 1 ∧ cellAt ws 1 1 = none) →
        ∀ c, cellAt (updateApplications ws apps now).1 1 c = cellAt ws 1 c)
    ∧ (∃ rows, (updateApplications ws apps now).1 = ensureHeaders ws ++ rows) := by
  refine ⟨fun r c hr hle => update_preserves_data_rows ws apps now r c hr hle, ?_, ?_⟩
  · intro hcond c
    have hws1 : ensureHeaders ws = ws := by
      unfold ensureHeaders
      rw [if_neg hcond]
    have hlen : 1 ≤ ws.length := by
      by_contra hl
      have h0 : ws = [] := List.length_eq_zero.mp (by omega)
      subst h0
      exact hcond ⟨by simp [maxRow], rfl⟩
    rw [updateApplications_eq]
    dsimp only
    rw [hws1]
    exact cellAt_append_lt _ _ _ _ hlen (by omega)
  · refine ⟨(newApps (getExistingMessageIds ws) apps).map (fun a => appRow a now), ?_⟩
    rw [updateApplications_eq]

/-- Claim C10 counterexample: a sheet whose single row has an empty first
cell but a populated second cell passes the header-write check
(max_row = 1 and A1 empty), so the header write overwrites the populated
cell B1: the claim that every populated row 1 survives unmodified fails. -/
theorem C10_counterexample :
    cellAt (updateApplications [[none, some "x"]] [] "t").1 1 2 ≠
      cellAt ([[none, some "x"]] : Ws) 1 2 := by
  decide

/-- Witness for C10_append_only: a populated A1 disables the header write
and row 1 is preserved. -/
theorem C10_append_only_witness :
    cellAt (updateApplications [[some "H", some "x"]] [] "t").1 1 2 =
      cellAt ([[some "H", some "x"]] : Ws) 1 2 :=
  (C10_append_only [[some "H", some "x"]] [] "t").2.1 (by decide) 2

/-! ## Classifier theorems -/

theorem classifyCore_no_match (ps : List (String × List Rx)) (content : List Char)
    (h : ∀ cat ∈ ps, ∀ p ∈ cat.2, searchB p content = false) :
    classifyCore ps content = "unknown" := by
  induction ps with
  | nil => rfl
  | cons c t ih =>
    have hhead : ¬ (c.2.any (fun p => searchB p content) = true) := by
      rw [List.any_eq_true]
      rintro ⟨p, hp, hsp⟩
      have hf := h c (List.mem_cons_self c t) p hp
      rw [hf] at hsp
      exact Bool.noConfusion hsp
    unfold classifyCore
    rw [if_neg hhead]
    exact ih (fun cat hcat p hp => h cat (List.mem_cons_of_mem _ hcat) p hp)

theorem classifyCore_first (content : List Char) :
    ∀ (l : List (String × List Rx)) (cat : String × List Rx)
      (r : List (String × List Rx)),
    (∀ cat2 ∈ l, ∀ p ∈ cat2.2, searchB p content = false) →
    (∃ p ∈ cat.2, searchB p content = true) →
    classifyCore (l ++ cat :: r) content = cat.1 := by
  intro l
  induction l with
  | nil =>
    intro cat r _ hex
    rw [List.nil_append]
    unfold classifyCore
    rw [if_pos]
    rw [List.any_eq_true]
    obtain ⟨p, hp, hsp⟩ := hex
    exact ⟨p, hp, hsp⟩
  | cons c t ih =>
    intro cat r hl hex
    have hhead : ¬ (c.2.any (fun p => searchB p content) = true) := by
      rw [List.any_eq_true]
      rintro ⟨p, hp, hsp⟩
      have hf := hl c (List.mem_cons_self c t) p hp
      rw [hf] at hsp
      exact Bool.noConfusion hsp
    rw [List.cons_append]
    unfold classifyCore
    rw [if_neg hhead]
    exact ih cat r (fun c2 h2 p hp => hl c2 (List.mem_cons_of_mem _ h2) p hp) hex

/-- Claim C3: classify lower-cases the space-joined subject and body,
scans the categories in their stored order (for the default set:
application_received, rejection, interview, offer; a runtime-added
category is appended at the end) and returns the name of the first
category one of whose patterns matches; if no pattern of any category
matches, it returns "unknown".  In particular, when two categories both
have a matching pattern, the earlier-ordered one wins. -/
theorem C3_classify_first_match (ps : List (String × List Rx)) (subject body : String) :
    ((∀ cat ∈ ps, ∀ p ∈ cat.2, searchB p (classifyContent subject body) = false) →
      classify_email ps subject body = "unknown")
    ∧ (∀ (l : List (String × List Rx)) (cat : String × List Rx)
        (r : List (String × List Rx)), ps = l ++ cat :: r →
        (∀ cat2 ∈ l, ∀ p ∈ cat2.2, searchB p (classifyContent subject body) = false) →
        (∃ p ∈ cat.2, searchB p (classifyContent subject body) = true) →
        classify_email ps subject body = cat.1)
    ∧ defaultPatterns.map Prod.fst =
        ["application_received", "rejection", "interview", "offer"]
    ∧ (∀ (category : String) (pat : Rx),
        ps.any (fun cat => cat.1 == category) = false →
        (add_pattern ps category pat).map Prod.fst = ps.map Prod.fst ++ [category]) := by
  refine ⟨?_, ?_, rfl, ?_⟩
  · intro h
    exact classifyCore_no_match ps (classifyContent subject body) h
  · intro l cat r hsplit hl hex
    unfold classify_email
    rw [hsplit]
    exact classifyCore_first (classifyContent subject body) l cat r hl hex
  · intro category pat hfresh
    unfold add_pattern
    rw [hfresh]
    simp

/-- Witness for C3_classify_first_match: both a rejection pattern and an
interview pattern match, and the earlier-ordered rejection wins. -/
theorem C3_classify_first_match_witness :
    classify_email defaultPatterns "Unfortunately" "interview" = "rejection" :=
  Eq.trans
    ((C3_classify_first_match defaultPatterns "Unfortunately" "interview").2.1
      (defaultPatterns.take 1) (defaultPatterns.getD 1 ("", []))
      (defaultPatterns.drop 2) (by rfl) (by decide) (by decide))
    (by rfl)

/-- Claim C4: the five concrete classifications with the built-in default
pattern set. -/
theorem C4_classify_examples :
    classify_email defaultPatterns "Thank you for applying" "" = "application_received"
    ∧ classify_email defaultPatterns
        "Unfortunately we have decided to move forward with other candidates" ""
        = "rejection"
    ∧ classify_email defaultPatterns "Let\x27s schedule a call" "" = "interview"
    ∧ classify_email defaultPatterns "We are pleased to offer you the position" ""
        = "offer"
    ∧ classify_email defaultPatterns "hello" "just checking in" = "unknown" := by
  refine ⟨?_, ?_, ?_, ?_, ?_⟩ <;> decide

/-! ## Company-extraction theorems -/

theorem headD_eq_getD0 {α : Type} (l : List α) (d : α) : l.headD d = l.getD 0 d := by
  cases l <;> rfl

theorem getD1_eq_tail_headD {α : Type} (l : List α) (d : α) :
    l.getD 1 d = l.tail.headD d := by
  cases l with
  | nil => rfl
  | cons a t => cases t <;> rfl

theorem pySplit_headD (sep : Char) (l : List Char) :
    (pySplit sep l).headD [] = l.takeWhile (fun c => decide (c ≠ sep)) := by
  induction l with
  | nil => rfl
  | cons c t ih =>
    simp only [pySplit]
    by_cases hc : c = sep
    · subst hc
      rw [if_pos rfl, List.takeWhile_cons, if_neg (by simp), List.headD_cons]
    · rw [if_neg hc, List.takeWhile_cons, if_pos (by simp [hc]), List.headD_cons]
      rw [ih]

theorem pySplit_getD1 (sep : Char) (l : List Char) (h : sep ∈ l) :
    (pySplit sep l).getD 1 [] =
      ((l.dropWhile (fun c => decide (c ≠ sep))).drop 1).takeWhile
        (fun c => decide (c ≠ sep)) := by
  induction l with
  | nil => simp at h
  | cons c t ih =>
    simp only [pySplit]
    by_cases hc : c = sep
    · subst hc
      rw [if_pos rfl, getD1_eq_tail_headD, List.tail_cons, pySplit_headD,
        List.dropWhile_cons, if_neg (by simp)]
      rfl
    · have hmem : sep ∈ t := by
        rcases List.mem_cons.mp h with heq | hm
        · exact absurd heq.symm hc
        · exact hm
      rw [if_neg hc, getD1_eq_tail_headD, List.tail_cons, ← getD1_eq_tail_headD,
        ih hmem, List.dropWhile_cons, if_pos (by simp [hc])]

/-- Claim C5 (amended): extract_company returns "Unknown" when the sender
has no '@'; otherwise the domain is the portion between the first and the
second '@' (field 1 of splitting on '@') — not the whole substring after
the '@' — lower-cased; an exact match against the seven generic provider
domains yields "Unknown", and otherwise the title-cased first
dot-separated label of the domain is returned.  The claim's concrete
examples hold. -/
theorem C5_extract_company (sender : String) :
    extract_company sender = extractCompanyAmended sender
    ∧ extract_company "recruiter@acmecorp.com" = "Acmecorp"
    ∧ extract_company "someone@gmail.com" = "Unknown"
    ∧ extract_company "no-at-sign" = "Unknown" := by
  refine ⟨?_, by decide, by decide, by decide⟩
  unfold extract_company extractCompanyAmended
  by_cases hat : sender.data.contains '@'
  · have hmem : '@' ∈ sender.data := by simpa using hat
    rw [if_pos hat, if_pos hat]
    have hlab : ∀ dom : List Char, (pySplit '.' dom).getD 0 [] =
        dom.takeWhile (fun c => decide (c ≠ '.')) := by
      intro dom
      rw [← headD_eq_getD0]
      exact pySplit_headD '.' dom
    rw [pySplit_getD1 '@' sender.data hmem]
    simp only [hlab]
  · rw [if_neg hat, if_neg hat]

/-- Claim C5 counterexample: for a sender with two '@' characters the
code and the claim's description of the domain disagree: the code takes
the field between the first and second '@' ("b", giving company "B"),
while the claimed "domain portion after '@'" is "b@c.com", whose first
dot label title-cases to "B@C". -/
theorem C5_counterexample :
    extract_company "a@b@c.com" = "B" ∧ extractCompanyClaim "a@b@c.com" = "B@C" := by
  exact ⟨by decide, by decide⟩

/-! ## Position-extraction theorem -/

/-- Claim C6: _extract_position applies its three patterns in priority
order with case-insensitive search; the first pattern that matches
determines the result — its first capture group stripped of surrounding
whitespace and title-cased — later patterns are not consulted, and if no
pattern matches the result is "Unknown". -/
theorem C6_extract_position (subject : String) :
    (∀ g, searchG posPat1 subject.data = some g →
        extract_position subject = ⟨pyTitle (pyStrip (g.getD []))⟩)
    ∧ (searchG posPat1 subject.data = none →
        ∀ g, searchG posPat2 subject.data = some g →
        extract_position subject = ⟨pyTitle (pyStrip (g.getD []))⟩)
    ∧ (searchG posPat1 subject.data = none → searchG posPat2 subject.data = none →
        ∀ g, searchG posPat3 subject.data = some g →
        extract_position subject = ⟨pyTitle (pyStrip (g.getD []))⟩)
    ∧ (searchG posPat1 subject.data = none → searchG posPat2 subject.data = none →
        searchG posPat3 subject.data = none →
        extract_position subject = "Unknown") := by
  refine ⟨?_, ?_, ?_, ?_⟩
  · intro g h1
    unfold extract_position positionPatterns
    simp only [List.findSome?_cons, h1]
  · intro h1 g h2
    unfold extract_position positionPatterns
    simp only [List.findSome?_cons, h1, h2]
  · intro h1 h2 g h3
    unfold extract_position positionPatterns
    simp only [List.findSome?_cons, h1, h2, h3]
  · intro h1 h2 h3
    unfold extract_position positionPatterns
    simp only [List.findSome?_cons, h1, h2, h3, List.findSome?_nil]

/-- Witness for C6_extract_position: pattern 1 matches "Software
Engineer role" with capture group "Software Engineer", which is returned
title-cased. -/
theorem C6_extract_position_witness :
    extract_position "Software Engineer role" = "Software Engineer" :=
  Eq.trans
    ((C6_extract_position "Software Engineer role").1
      (some "Software Engineer".data) (by decide))
    (by decide)

/-! ## Date-parsing theorems -/

theorem digitVal_le (c : Char) (h : isDigitB c = true) : digitVal c ≤ 9 := by
  unfold isDigitB at h
  have hc := of_decide_eq_true h
  unfold digitVal
  omega

theorem isDigitB_digitChar (k : Nat) (h : k < 10) : isDigitB (digitChar k) = true := by
  interval_cases k <;> decide

theorem ymdShape_format (p : Ymd) : isYmdShape (formatYmd p) = true := by
  have h1 : isDigitB (digitChar (p.y / 1000 % 10)) = true :=
    isDigitB_digitChar _ (Nat.mod_lt _ (by omega))
  have h2 : isDigitB (digitChar (p.y / 100 % 10)) = true :=
    isDigitB_digitChar _ (Nat.mod_lt _ (by omega))
  have h3 : isDigitB (digitChar (p.y / 10 % 10)) = true :=
    isDigitB_digitChar _ (Nat.mod_lt _ (by omega))
  have h4 : isDigitB (digitChar (p.y % 10)) = true :=
    isDigitB_digitChar _ (Nat.mod_lt _ (by omega))
  have h5 : isDigitB (digitChar (p.m / 10 % 10)) = true :=
    isDigitB_digitChar _ (Nat.mod_lt _ (by omega))
  have h6 : isDigitB (digitChar (p.m % 10)) = true :=
    isDigitB_digitChar _ (Nat.mod_lt _ (by omega))
  have h7 : isDigitB (digitChar (p.d / 10 % 10)) = true :=
    isDigitB_digitChar _ (Nat.mod_lt _ (by omega))
  have h8 : isDigitB (digitChar (p.d % 10)) = true :=
    isDigitB_digitChar _ (Nat.mod_lt _ (by omega))
  simp [isYmdShape, formatYmd, format4, format2, h1, h2, h3, h4, h5, h6, h7, h8]

theorem matchMonthAux_bound : ∀ (names : List (List Char)) (i : Nat) (s : List Char)
    (m : Nat) (r : List Char), matchMonthAux i names s = some (m, r) →
    i + 1 ≤ m ∧ m ≤ i + names.length := by
  intro names
  induction names with
  | nil => intro i s m r h; simp [matchMonthAux] at h
  | cons n ns ih =>
    intro i s m r h
    unfold matchMonthAux at h
    cases hm : matchNameCI n s with
    | some r2 =>
      rw [hm] at h
      simp only [Option.some.injEq, Prod.mk.injEq] at h
      simp only [List.length_cons]
      omega
    | none =>
      rw [hm] at h
      have hb := ih (i + 1) s m r h
      simp only [List.length_cons]
      omega

theorem readYear_le (s : List Char) (v : Nat) (t : List Char)
    (h : readYear s = some (v, t)) : v ≤ 9999 := by
  unfold readYear at h
  split at h
  · rename_i a b c2 d t2
    split at h
    · rename_i hdig
      simp only [Bool.and_eq_true] at hdig
      obtain ⟨⟨⟨ha, hb⟩, hc⟩, hd⟩ := hdig
      have va := digitVal_le a ha
      have vb := digitVal_le b hb
      have vc := digitVal_le c2 hc
      have vd := digitVal_le d hd
      simp only [Option.some.injEq, Prod.mk.injEq] at h
      omega
    · exact absurd h (by simp)
  · exact absurd h (by simp)

theorem readDay_pos (s : List Char) (v : Nat) (t : List Char)
    (h : readDay s = some (v, t)) : 1 ≤ v := by
  unfold readDay at h
  dsimp only at h
  split at h
  · split at h
    · rename_i hcond
      simp only [Option.some.injEq, Prod.mk.injEq] at h
      omega
    · split at h
      · split at h
        · rename_i hone
          simp only [Option.some.injEq, Prod.mk.injEq] at h
          omega
        · exact absurd h (by simp)
      · exact absurd h (by simp)
  · split at h
    · split at h
      · rename_i hone
        simp only [Option.some.injEq, Prod.mk.injEq] at h
        omega
      · exact absurd h (by simp)
    · exact absurd h (by simp)

theorem parseDayPart_pos (s : List Char) (d : Nat) (s1 : List Char)
    (h : parseDayPart s = some (d, s1)) : 1 ≤ d := by
  unfold parseDayPart at h
  split at h
  · split at h
    · split at h
      · exact readDay_pos _ _ _ h
      · exact absurd h (by simp)
    · exact absurd h (by simp)
  · exact absurd h (by simp)

theorem daysInMonth_le31 (y m : Nat) : daysInMonth y m ≤ 31 := by
  unfold daysInMonth
  split
  · split <;> omega
  · split <;> omega

theorem parseMonthYear_bounds (s : List Char) (m y : Nat) (s2 : List Char)
    (h : parseMonthYear s = some (m, y, s2)) :
    1 ≤ m ∧ m ≤ 12 ∧ y ≤ 9999 := by
  unfold parseMonthYear at h
  split at h
  · split at h
    · rename_i r3 m2 r hmon
      split at h
      · split at h
        · rename_i r4 y2 r5 hyear
          simp only [Option.some.injEq, Prod.mk.injEq] at h
          obtain ⟨hm, hy, hs⟩ := h
          have hb := matchMonthAux_bound monthAbbrs 0 _ _ _ hmon
          have hyle := readYear_le _ _ _ hyear
          have hlen : monthAbbrs.length = 12 := by decide
          rw [hlen] at hb
          omega
        · exact absurd h (by simp)
      · exact absurd h (by simp)
    · exact absurd h (by simp)
  · exact absurd h (by simp)

theorem strptime_valid (s : List Char) (p : Ymd)
    (h : strptimeRfc s = some p) : ValidYmd p := by
  unfold strptimeRfc at h
  split at h
  · rename_i d s1 hday
    split at h
    · rename_i m y s2 hmy
      split at h
      · rename_i sec s3 htime
        split at h
        · rename_i rest hz
          split at h
          · rename_i hcond
            obtain ⟨hrest, hsec, hy1, hd⟩ := hcond
            simp only [Option.some.injEq] at h
            subst h
            have hdpos := parseDayPart_pos _ _ _ hday
            have hmb := parseMonthYear_bounds _ _ _ _ hmy
            have hd31 := daysInMonth_le31 y m
            exact ⟨hy1, hmb.2.2, hmb.1, hmb.2.1, hdpos, by show d ≤ 31; omega⟩
          · exact absurd h (by simp)
        · exact absurd h (by simp)
      · exact absurd h (by simp)
    · exact absurd h (by simp)
  · exact absurd h (by simp)

/-- Claim C7: _parse_email_date strips the text from the first " (" on
(removing an optional parenthesized timezone name), parses the remainder
with strptime format "%a, %d %b %Y %H:%M:%S %z", and formats the parsed
date as YYYY-MM-DD; on any parse failure it returns the current
processing date instead, so the output is always a YYYY-MM-DD string. -/
theorem C7_parse_email_date (today : Ymd) (header : String)
    (_hT : ValidYmd today) :
    (∀ p, strptimeRfc (beforeParen header.data) = some p →
        parse_email_date today header = formatYmd p ∧ ValidYmd p)
    ∧ (strptimeRfc (beforeParen header.data) = none →
        parse_email_date today header = formatYmd today)
    ∧ isYmdShape (parse_email_date today header) = true := by
  refine ⟨?_, ?_, ?_⟩
  · intro p hp
    unfold parse_email_date
    rw [hp]
    exact ⟨rfl, strptime_valid _ _ hp⟩
  · intro hn
    unfold parse_email_date
    rw [hn]
  · unfold parse_email_date
    cases hs : strptimeRfc (beforeParen header.data) with
    | some p => exact ymdShape_format p
    | none => exact ymdShape_format today

/-- Witness for C7_parse_email_date: a concrete RFC-2822 header with a
parenthesized timezone name parses to its date. -/
theorem C7_parse_email_date_witness :
    parse_email_date ⟨2026, 10, 12⟩ "Fri, 15 Mar 2024 10:30:00 +0000 (UTC)" =
      "2024-03-15" :=
  Eq.trans
    (((C7_parse_email_date ⟨2026, 10, 12⟩ "Fri, 15 Mar 2024 10:30:00 +0000 (UTC)"
        (by decide)).1 ⟨2024, 3, 15⟩ (by decide)).1)
    (by decide)

/-! ## Atomicity of the persisted merge -/

/-- Claim C8: for every disk state, batch and combination of failures
(load exception, in-memory merge exception such as a malformed record,
save failure), update_applications either reports success with the disk
holding exactly the fully merged table, or reports failure with the disk
exactly as it was: all mutation happens in memory and the single save at
the end is whole-table, so no outcome shows a partially applied merge. -/
theorem C8_update_atomic (disk : Option Ws) (loadFails mergeFails saveFails : Bool)
    (apps : List AppRecord) (now : String) :
    ((updateApplicationsDisk disk loadFails mergeFails saveFails apps now).2 = false →
      (updateApplicationsDisk disk loadFails mergeFails saveFails apps now).1 = disk)
    ∧ ((updateApplicationsDisk disk loadFails mergeFails saveFails apps now).2 = true →
      (updateApplicationsDisk disk loadFails mergeFails saveFails apps now).1 =
        some (updateApplications (disk.getD []) apps now).1) := by
  unfold updateApplicationsDisk
  split
  · exact ⟨fun _ => rfl, fun hc => absurd hc (by simp)⟩
  · dsimp only
    split
    · exact ⟨fun _ => rfl, fun hc => absurd hc (by simp)⟩
    · split
      · exact ⟨fun _ => rfl, fun hc => absurd hc (by simp)⟩
      · exact ⟨fun hc => absurd hc (by simp), fun _ => rfl⟩

/-- Witness for C8_update_atomic: a failed save leaves the disk as it
was. -/
theorem C8_update_atomic_witness :
    (updateApplicationsDisk (some [[some "H"]]) false false true [] "t").1 =
      some [[some "H"]] :=
  (C8_update_atomic (some [[some "H"]]) false false true [] "t").1 (by decide)

/-! ## Summary theorems -/

theorem lookup_bump (l : List (String × Nat)) (s x : String) :
    (bump l x).lookup s =
      if s = x then some ((l.lookup s).getD 0 + 1) else l.lookup s := by
  induction l with
  | nil =>
    unfold bump
    by_cases hsx : s = x
    · subst hsx
      rw [if_pos rfl]
      have hb : (s == s) = true := by simp
      simp [List.lookup, hb]
    · rw [if_neg hsx]
      have hb : (s == x) = false := by simp [hsx]
      simp [List.lookup, hb]
  | cons kv t ih =>
    obtain ⟨k, v⟩ := kv
    unfold bump
    by_cases hk : k = x
    · subst hk
      rw [if_pos rfl]
      by_cases hsx : s = k
      · subst hsx
        rw [if_pos rfl]
        have hb : (s == s) = true := by simp
        simp [List.lookup, hb]
      · rw [if_neg hsx]
        have hb : (s == k) = false := by simp [hsx]
        simp [List.lookup, hb]
    · rw [if_neg hk]
      by_cases hsk : s = k
      · subst hsk
        have hsx : ¬ s = x := hk
        rw [if_neg hsx]
        have hb : (s == s) = true := by simp
        simp [List.lookup, hb]
      · have hb : (s == k) = false := by simp [hsk]
        simp only [List.lookup, hb]
        exact ih

theorem lookup_foldl_bump (l : List String) : ∀ (acc : List (String × Nat)) (s : String),
    ((l.foldl bump acc).lookup s).getD 0 = (acc.lookup s).getD 0 + l.count s := by
  induction l with
  | nil => intro acc s; simp
  | cons x t ih =>
    intro acc s
    rw [List.foldl_cons, ih (bump acc x) s, lookup_bump]
    by_cases hsx : s = x
    · rw [if_pos hsx]
      simp [List.count_cons, hsx]
      omega
    · rw [if_neg hsx]
      simp [List.count_cons, hsx]

theorem countStatus_eq (ws : Ws) :
    countApplicationsByStatus ws =
      ((statusList ws).foldl bump [], (statusList ws).length) := by
  unfold countApplicationsByStatus statusList
  suffices h : ∀ (rows : List Row) (acc : List (String × Nat)) (n : Nat),
      rows.foldl statusStep (acc, n) =
        ((rows.filterMap (fun r => truthy (getCellR r 3))).foldl bump acc,
          n + (rows.filterMap (fun r => truthy (getCellR r 3))).length) by
    have h2 := h (ws.drop 1) [] 0
    simpa using h2
  intro rows
  induction rows with
  | nil => intro acc n; simp
  | cons r t ih =>
    intro acc n
    rw [List.foldl_cons]
    have hstep : statusStep (acc, n) r =
        match truthy (getCellR r 3) with
        | some s2 => (bump acc s2, n + 1)
        | none => (acc, n) := rfl
    cases ht : truthy (getCellR r 3) with
    | some s2 =>
      rw [hstep, ht]
      dsimp only
      rw [ih (bump acc s2) (n + 1)]
      simp only [List.filterMap_cons, ht]
      refine Prod.ext rfl ?_
      simp
      omega
    | none =>
      rw [hstep, ht]
      dsimp only
      rw [ih acc n]
      simp only [List.filterMap_cons, ht]

/-- Claim C9: a missing file, and a table whose data-row scan counts
nothing (in particular a header-only table), yield a descriptive error
result, never a zero-filled summary; a table with at least one data row
carrying a non-empty status yields the total over the data rows (rows
with an empty or missing status cell are skipped) and per-status counts:
looking up any status in the returned counts gives its number of
occurrences among the data rows. -/
theorem C9_summary (disk : Option Ws) :
    (disk = none →
      get_application_summary disk = SummaryResult.err "Excel file not found")
    ∧ (∀ ws, disk = some ws → ws.length ≤ 1 →
        get_application_summary disk =
          SummaryResult.err "No applications found in Excel file")
    ∧ (∀ ws, disk = some ws → statusList ws ≠ [] →
        get_application_summary disk =
          SummaryResult.summary (statusList ws).length ((statusList ws).foldl bump [])
        ∧ ∀ s, (((statusList ws).foldl bump []).lookup s).getD 0 =
            (statusList ws).count s) := by
  refine ⟨?_, ?_, ?_⟩
  · intro h
    subst h
    rfl
  · intro ws h hlen
    subst h
    unfold get_application_summary
    dsimp only
    rw [countStatus_eq]
    dsimp only
    have hnil : statusList ws = [] := by
      unfold statusList
      rw [List.drop_eq_nil_of_le hlen]
      rfl
    rw [hnil]
    rfl
  · intro ws h hne
    subst h
    unfold get_application_summary
    dsimp only
    rw [countStatus_eq]
    dsimp only
    rw [if_neg (fun hc => hne (List.length_eq_zero.mp hc))]
    refine ⟨rfl, fun s => ?_⟩
    rw [lookup_foldl_bump]
    simp

/-- Witness for C9_summary: one data row with status "applied" yields
total 1 and count 1 for "applied". -/
theorem C9_summary_witness :
    get_application_summary
        (some [[some "Company"], [some "A", some "B", some "applied"]]) =
      SummaryResult.summary 1 [("applied", 1)] :=
  Eq.trans
    (((C9_summary (some [[some "Company"], [some "A", some "B", some "applied"]])).2.2
      [[some "Company"], [some "A", some "B", some "applied"]] rfl (by decide)).1)
    (by decide)
